import Mathlib

/-
Verification of the MCP calculator repository.

Server side (src/mcp_server.py): five arithmetic tools registered on a
FastMCP server. Each Python handler either returns a value or raises
ValueError on invalid input; we embed a handler as a function into
`Except DomainError α`, where `.error` models the raised ValueError.
Python ints are embedded as ℤ (arbitrary precision), Python floats as ℚ
for inputs (every Python float value is a rational) and `math.sqrt` as
the exact real square root.

Client side (src/mcp_client.py): a LangGraph state machine with nodes
`call_model` and `tools`, conditional routing by `should_continue`, and
edges START → call_model, call_model → {tools, END}, tools → call_model.
We embed the graph execution as a fuel-indexed recursive function over
the message list; `none` means the loop did not terminate within the
given fuel.
-/

namespace MCPServer

/-- Models a Python ValueError raised by a tool handler; per the spec's
error taxonomy these are DomainErrors, converted to Failure results at
the server boundary. -/
structure DomainError where
  message : String
  deriving Repr, DecidableEq

/-- Embedding of `add` (src/mcp_server.py lines 15-21): exact integer
addition, never fails. -/
def add (a b : ℤ) : ℤ := a + b

/-- Embedding of `multiply` (src/mcp_server.py lines 27-32): exact integer
multiplication, never fails. -/
def multiply (a b : ℤ) : ℤ := a * b

/-- Embedding of `divide` (src/mcp_server.py lines 38-46): raises
ValueError when b == 0, otherwise returns a / b. Python float values are
dyadic rationals, so ℚ faithfully carries the guard and the exact
quotient of representable inputs. -/
def divide (a b : ℚ) : Except DomainError ℚ :=
  if b = 0 then .error ⟨"Division by zero is not allowed."⟩
  else .ok (a / b)

/-- Embedding of `square_root` (src/mcp_server.py lines 52-60): raises
ValueError when x < 0, otherwise returns math.sqrt(x), embedded as the
exact real square root. -/
noncomputable def square_root (x : ℚ) : Except DomainError ℝ :=
  if x < 0 then .error ⟨"Cannot take square root of a negative number."⟩
  else .ok (Real.sqrt (x : ℝ))

/-- Embedding of `factorial` (src/mcp_server.py lines 66-74): raises
ValueError when n < 0, otherwise returns math.factorial(n). -/
def factorial (n : ℤ) : Except DomainError ℤ :=
  if n < 0 then .error ⟨"Factorial is not defined for negative numbers."⟩
  else .ok (Nat.factorial n.toNat)

/-- Argument and result values crossing the tool boundary: Python ints,
Python floats (as rationals), and the exact real output of square_root. -/
inductive Value where
  | int (i : ℤ)
  | rat (q : ℚ)
  | real (r : ℝ)

/-- Error kinds of the spec's taxonomy that can occur at invocation time. -/
inductive ErrorKind where
  | DomainError
  | UnknownToolError
  | InvalidArgumentError
  deriving Repr, DecidableEq

/-- ToolCallResult: tagged variant Success{value} or Failure{kind, message};
always returned as data, never a raised fault across the remote boundary. -/
inductive ToolCallResult where
  | Success (value : Value)
  | Failure (kind : ErrorKind) (message : String)

/-- Arguments of an invocation: a mapping from parameter name to value. -/
def Args := List (String × Value)

/-- Looks up an integer-typed argument by parameter name. -/
def getInt (args : Args) (key : String) : Option ℤ :=
  match args.lookup key with
  | some (.int i) => some i
  | _ => none

/-- Looks up a float-typed argument by parameter name. -/
def getRat (args : Args) (key : String) : Option ℚ :=
  match args.lookup key with
  | some (.rat q) => some q
  | _ => none

/-- Converts a handler outcome to a wire result: a returned value becomes
Success, a raised DomainError becomes Failure{DomainError, message}. -/
def liftResult (toValue : α → Value) : Except DomainError α → ToolCallResult
  | .ok v => .Success (toValue v)
  | .error e => .Failure .DomainError e.message

/-- Names of the five tools registered at server startup. -/
def registeredTools : List String :=
  ["add", "multiply", "divide", "square_root", "factorial"]

/-- Modelled from the spec: the registry `invoke` operation of §4.1 is
implemented by the FastMCP library, which is not part of this repository;
only the handlers and their registrations are in src/mcp_server.py.
Looks up the handler by name, failing with UnknownToolError as a Failure
result if absent; validates arguments against the declared schema,
failing with InvalidArgumentError on mismatch; executes the handler and
converts a raised domain error into a Failure result. -/
noncomputable def invoke (name : String) (args : Args) : ToolCallResult :=
  if name = "add" then
    match getInt args "a", getInt args "b" with
    | some a, some b => .Success (.int (add a b))
    | _, _ => .Failure .InvalidArgumentError "invalid arguments for add"
  else if name = "multiply" then
    match getInt args "a", getInt args "b" with
    | some a, some b => .Success (.int (multiply a b))
    | _, _ => .Failure .InvalidArgumentError "invalid arguments for multiply"
  else if name = "divide" then
    match getRat args "a", getRat args "b" with
    | some a, some b => liftResult .rat (divide a b)
    | _, _ => .Failure .InvalidArgumentError "invalid arguments for divide"
  else if name = "square_root" then
    match getRat args "x" with
    | some x => liftResult .real (square_root x)
    | _ => .Failure .InvalidArgumentError "invalid arguments for square_root"
  else if name = "factorial" then
    match getInt args "n" with
    | some n => liftResult .int (factorial n)
    | _ => .Failure .InvalidArgumentError "invalid arguments for factorial"
  else
    .Failure .UnknownToolError ("Unknown tool: " ++ name)

end MCPServer

namespace MCPClient

open MCPServer

/-- A tool call requested by the model: langchain tool_calls carry an id,
a tool name and an argument mapping. -/
structure ToolCallRequest where
  id : String
  name : String
  args : Args

/-- A message of the LangGraph MessagesState: HumanMessage, AIMessage
(with its requested tool_calls), or ToolMessage carrying one tool result. -/
inductive Message where
  | user (text : String)
  | assistant (text : String) (tool_calls : List ToolCallRequest)
  | toolResult (call_id : String) (result : ToolCallResult)

/-- Requested tool calls of a message: only an AIMessage carries a
tool_calls list; for the other kinds it is empty. -/
def tool_callsOf : Message → List ToolCallRequest
  | .assistant _ tcs => tcs
  | _ => []

/-- Content text of a message, as read by `result["messages"][-1].content`
(src/mcp_client.py line 131); for a ToolMessage the content is the
serialized tool output, which the loop never inspects, so it is left
abstract as the empty string here. -/
def contentOf : Message → String
  | .user t => t
  | .assistant t _ => t
  | .toolResult _ _ => ""

/-- Routing targets of the conditional edge out of call_model. -/
inductive Route where
  | tools
  | stop
  deriving Repr, DecidableEq

/-- Embedding of `should_continue` (src/mcp_client.py lines 81-93):
inspects the last message of the state; if it asked for tool calls the
graph routes to the tools node, otherwise to END. -/
def should_continue (msgs : List Message) : Route :=
  match msgs.getLast? with
  | some last_message =>
    if (tool_callsOf last_message).isEmpty then .stop else .tools
  | none => .stop

/-- The Policy capability of the spec's §6: given the conversation it
returns an AssistantMessage, i.e. a text and a list of requested tool
calls. In src/mcp_client.py this is `model_with_tools.ainvoke`. -/
def Policy := List Message → String × List ToolCallRequest

/-- The tool executor backing the tools node: maps one request to its
ToolCallResult. In the repository this is the MCP round trip through the
Tool Client to the server registry. -/
def Executor := ToolCallRequest → ToolCallResult

/-- Embedding of `call_model` (src/mcp_client.py lines 99-105): asks the
Policy and appends the returned AssistantMessage to the state (the
MessagesState reducer appends returned messages). -/
def call_model (policy : Policy) (msgs : List Message) : List Message :=
  msgs ++ [.assistant (policy msgs).1 (policy msgs).2]

/-- Modelled from the spec: the tools node is `ToolNode(tools)`
(src/mcp_client.py line 75), a LangGraph prebuilt not part of this
repository. Per §4.4 Acting, it executes every ToolCallRequest of the
last AssistantMessage in the order the Policy produced them and appends
one ToolResultMessage per call, in the same order. -/
def tool_node (exec : Executor) (msgs : List Message) : List Message :=
  msgs ++ (tool_callsOf ((msgs.getLast?).getD (.user ""))).map
    (fun c => .toolResult c.id (exec c))

/-- Outcome of one terminated graph run: the final message list, the
final answer text, and how many Policy and tool invocations happened. -/
structure RunResult where
  messages : List Message
  answer : String
  policyCalls : ℕ
  toolCalls : ℕ

/-- Embedding of the compiled graph's execution (src/mcp_client.py lines
111-131): START → call_model; after call_model, `should_continue` routes
to the tools node or to END; tools → call_model. `fuel` bounds the number
of call_model steps we unfold; `none` means the run did not reach END
within that bound. On END the answer is the content of the last message. -/
def run (policy : Policy) (exec : Executor) : ℕ → List Message → Option RunResult
  | 0, _ => none
  | fuel + 1, msgs =>
    let msgs1 := call_model policy msgs
    match should_continue msgs1 with
    | .stop => some ⟨msgs1, contentOf ((msgs1.getLast?).getD (.user "")), 1, 0⟩
    | .tools =>
      match run policy exec fuel (tool_node exec msgs1) with
      | none => none
      | some r =>
        some ⟨r.messages, r.answer, r.policyCalls + 1,
              r.toolCalls + (policy msgs).2.length⟩

end MCPClient

namespace MCPServer

/-- C3: for every a, divide(a, 0) returns Failure with DomainError (as a
data value, not a raised fault); for every b ≠ 0, divide(a, b) returns
Success(a / b); in particular divide(10, 2) = Success(5.0). -/
theorem divide_spec :
    (∀ a : ℚ, divide a 0 = .error ⟨"Division by zero is not allowed."⟩) ∧
    (∀ a b : ℚ, b ≠ 0 → divide a b = .ok (a / b)) ∧
    divide 10 2 = .ok 5 := by
  refine ⟨fun a => by simp [divide], fun a b hb => by simp [divide, hb], ?_⟩
  norm_num [divide]

/-- Witness for C3 at a = 7, b = 2. -/
theorem divide_spec_witness : divide 7 2 = .ok (7 / 2) :=
  divide_spec.2.1 7 2 (by norm_num)

/-- C4: square_root(x) returns Failure with DomainError exactly when x is
negative, and Success with the square root of x otherwise; in particular
square_root(-1) fails and square_root(16) = Success(4.0). -/
theorem square_root_spec :
    (∀ x : ℚ, (∃ e, square_root x = .error e) ↔ x < 0) ∧
    (∀ x : ℚ, 0 ≤ x → square_root x = .ok (Real.sqrt (x : ℝ))) ∧
    square_root (-1) = .error ⟨"Cannot take square root of a negative number."⟩ ∧
    square_root 16 = .ok 4 := by
  have hok : ∀ x : ℚ, 0 ≤ x → square_root x = .ok (Real.sqrt (x : ℝ)) := by
    intro x hx
    simp [square_root, not_lt.mpr hx]
  refine ⟨fun x => ⟨?_, fun hx =>
    ⟨⟨"Cannot take square root of a negative number."⟩, by simp [square_root, hx]⟩⟩,
    hok, ?_, ?_⟩
  · rintro ⟨e, he⟩
    by_contra hx
    rw [hok x (not_lt.mp hx)] at he
    exact Except.noConfusion he
  · norm_num [square_root]
  · rw [hok 16 (by norm_num)]
    rw [show ((16 : ℚ) : ℝ) = 4 ^ 2 by norm_num, Real.sqrt_sq (by norm_num : (0:ℝ) ≤ 4)]

/-- Witness for C4 at x = -9 (negative) and x = 2 (non-negative). -/
theorem square_root_spec_witness :
    (∃ e, square_root (-9) = .error e) ∧
    square_root 2 = .ok (Real.sqrt ((2 : ℚ) : ℝ)) :=
  ⟨(square_root_spec.1 (-9)).mpr (by norm_num),
   square_root_spec.2.1 2 (by norm_num)⟩

/-- C5: factorial(n) returns Failure with DomainError exactly when n is
negative and Success(n!) for every non-negative integer; in particular
factorial(-1) fails, factorial(5) = Success(120), factorial(0) = Success(1). -/
theorem factorial_spec :
    (∀ n : ℤ, (∃ e, factorial n = .error e) ↔ n < 0) ∧
    (∀ n : ℕ, factorial (n : ℤ) = .ok (Nat.factorial n)) ∧
    factorial (-1) = .error ⟨"Factorial is not defined for negative numbers."⟩ ∧
    factorial 5 = .ok 120 ∧
    factorial 0 = .ok 1 := by
  refine ⟨fun n => ⟨?_, fun hn =>
    ⟨⟨"Factorial is not defined for negative numbers."⟩, by simp [factorial, hn]⟩⟩,
    fun n => ?_, ?_, ?_, ?_⟩
  · rintro ⟨e, he⟩
    by_contra hn
    simp [factorial, hn] at he
  · simp [factorial, Int.not_lt.mpr (Int.natCast_nonneg n)]
  · norm_num [factorial]
  · rfl
  · rfl

/-- Witness for C5 at n = -5 (negative) and n = 6 (non-negative). -/
theorem factorial_spec_witness :
    (∃ e, factorial (-5) = .error e) ∧
    factorial ((6 : ℕ) : ℤ) = .ok (Nat.factorial 6) :=
  ⟨(factorial_spec.1 (-5)).mpr (by norm_num), factorial_spec.2.1 6⟩

/-- C6: invoking add with integer arguments a and b returns
Success(a + b) and invoking multiply returns Success(a * b), with exact
integer arithmetic; in particular add(2,3) = 5 and multiply(4,5) = 20. -/
theorem add_multiply_exact :
    (∀ a b : ℤ, invoke "add" [("a", .int a), ("b", .int b)] =
      .Success (.int (a + b))) ∧
    (∀ a b : ℤ, invoke "multiply" [("a", .int a), ("b", .int b)] =
      .Success (.int (a * b))) ∧
    add 2 3 = 5 ∧
    multiply 4 5 = 20 :=
  ⟨fun _ _ => rfl, fun _ _ => rfl, rfl, rfl⟩

/-- C7: for every tool name not in the registry and every argument
mapping, invoke returns Failure with UnknownToolError as a data value. -/
theorem invoke_unknown_tool (name : String) (args : Args)
    (h : name ∉ registeredTools) :
    invoke name args = .Failure .UnknownToolError ("Unknown tool: " ++ name) := by
  simp only [registeredTools, List.mem_cons, List.not_mem_nil, or_false, not_or] at h
  obtain ⟨h1, h2, h3, h4, h5⟩ := h
  simp [invoke, h1, h2, h3, h4, h5]

/-- Witness for C7 at the unregistered name "power" with empty arguments. -/
theorem invoke_unknown_tool_witness :
    invoke "power" [] = .Failure .UnknownToolError "Unknown tool: power" :=
  invoke_unknown_tool "power" [] (by decide)

/-- C10: square_root(0) returns Success(0.0): the negative-input guard is
a strict comparison, so zero is accepted rather than rejected. -/
theorem square_root_zero : square_root 0 = .ok 0 := by
  simp [square_root]

end MCPServer

namespace MCPClient

/-- The messages appended by one Acting step: one ToolResultMessage per
requested call, in request order. -/
def resultsFor (exec : Executor) (calls : List ToolCallRequest) : List Message :=
  calls.map (fun c => .toolResult c.id (exec c))

/-- One call_model step appends exactly the Policy's AssistantMessage. -/
theorem call_model_eq (policy : Policy) (msgs : List Message) (text : String)
    (calls : List ToolCallRequest) (h : policy msgs = (text, calls)) :
    call_model policy msgs = msgs ++ [.assistant text calls] := by
  simp [call_model, h]

/-- The tools node invoked on a state ending in an AssistantMessage
appends that message's results in request order. -/
theorem tool_node_eq (exec : Executor) (msgs : List Message) (text : String)
    (calls : List ToolCallRequest) :
    tool_node exec (msgs ++ [.assistant text calls]) =
      msgs ++ [.assistant text calls] ++ resultsFor exec calls := by
  simp [tool_node, resultsFor, List.getLast?_concat, tool_callsOf]

/-- Unfolding of a run whose first Deciding step requests no tool calls:
the conditional edge routes to END at once. -/
theorem run_succ_stop (policy : Policy) (exec : Executor) (msgs : List Message)
    (text : String) (fuel : ℕ) (h : policy msgs = (text, [])) :
    run policy exec (fuel + 1) msgs =
      some ⟨msgs ++ [.assistant text []], text, 1, 0⟩ := by
  simp [run, call_model, h, should_continue, List.getLast?_concat, tool_callsOf,
    contentOf]

/-- Unfolding of a run whose first Deciding step requests tool calls: the
conditional edge routes to the tools node, which appends the results and
hands control back to call_model. -/
theorem run_succ_tools (policy : Policy) (exec : Executor) (msgs : List Message)
    (text : String) (calls : List ToolCallRequest) (fuel : ℕ)
    (h : policy msgs = (text, calls)) (hne : calls ≠ []) :
    run policy exec (fuel + 1) msgs =
      match run policy exec fuel
          (msgs ++ [.assistant text calls] ++ resultsFor exec calls) with
      | none => none
      | some r =>
        some ⟨r.messages, r.answer, r.policyCalls + 1, r.toolCalls + calls.length⟩ := by
  have hc : call_model policy msgs = msgs ++ [.assistant text calls] :=
    call_model_eq policy msgs text calls h
  have hsc : should_continue (msgs ++ [.assistant text calls]) = .tools := by
    simp [should_continue, List.getLast?_concat, tool_callsOf, hne]
  simp only [run, hc, hsc, tool_node_eq, h]

/-- C1: for every Policy whose first Deciding step returns an
AssistantMessage with no requested tool calls, the loop terminates after
exactly one Policy invocation and zero tool invocations, and the final
answer is that message's text. -/
theorem loop_stops_on_empty_tool_calls (policy : Policy) (exec : Executor)
    (msgs : List Message) (text : String) (fuel : ℕ)
    (h : policy msgs = (text, [])) :
    run policy exec (fuel + 1) msgs =
      some ⟨msgs ++ [.assistant text []], text, 1, 0⟩ :=
  run_succ_stop policy exec msgs text fuel h

/-- Witness for C1: a Policy that immediately answers "42". -/
theorem loop_stops_on_empty_tool_calls_witness :
    run (fun _ => ("42", [])) (fun _ => .Failure .UnknownToolError "") 1 [.user "q"] =
      some ⟨[.user "q", .assistant "42" []], "42", 1, 0⟩ :=
  loop_stops_on_empty_tool_calls (fun _ => ("42", []))
    (fun _ => .Failure .UnknownToolError "") [.user "q"] "42" 0 rfl

/-- C2: for every Policy that requests the calls `calls` (N = length of
`calls`, nonzero) on its first Deciding step and zero on its second, the
loop performs exactly one Acting step appending exactly N
ToolResultMessages in request order, then terminates after the second
Policy invocation with N tool invocations in total. -/
theorem loop_single_acting_step (policy : Policy) (exec : Executor)
    (msgs : List Message) (t1 t2 : String) (calls : List ToolCallRequest)
    (fuel : ℕ) (h1 : policy msgs = (t1, calls)) (hne : calls ≠ [])
    (h2 : policy (msgs ++ [.assistant t1 calls] ++ resultsFor exec calls) =
      (t2, [])) :
    run policy exec (fuel + 2) msgs =
      some ⟨msgs ++ [.assistant t1 calls] ++ resultsFor exec calls ++
              [.assistant t2 []],
            t2, 2, calls.length⟩ := by
  rw [show fuel + 2 = (fuel + 1) + 1 by omega,
    run_succ_tools policy exec msgs t1 calls (fuel + 1) h1 hne,
    run_succ_stop policy exec _ t2 fuel h2]
  simp

/-- Witness for C2: a Policy that first requests add(2, 3) and, once the
result is in the conversation, answers "5". -/
theorem loop_single_acting_step_witness :
    run
      (fun msgs =>
        if msgs.length ≤ 1 then
          ("", [⟨"call1", "add", [("a", .int 2), ("b", .int 3)]⟩])
        else ("5", []))
      (fun _ => .Success (.int 5)) 2 [.user "q"] =
      some ⟨[.user "q",
             .assistant "" [⟨"call1", "add", [("a", .int 2), ("b", .int 3)]⟩],
             .toolResult "call1" (.Success (.int 5)),
             .assistant "5" []],
            "5", 2, 1⟩ :=
  loop_single_acting_step
    (fun msgs =>
      if msgs.length ≤ 1 then
        ("", [⟨"call1", "add", [("a", .int 2), ("b", .int 3)]⟩])
      else ("5", []))
    (fun _ => .Success (.int 5)) [.user "q"] ""
    "5" [⟨"call1", "add", [("a", .int 2), ("b", .int 3)]⟩] 0 rfl
    (List.cons_ne_nil _ _) rfl

/-- C8: the loop imposes no maximum step count: a Policy that requests at
least one tool call on every Deciding step makes the run exhaust any fuel
bound without reaching END, for every bound and every starting state. -/
theorem loop_no_step_bound (policy : Policy) (exec : Executor)
    (h : ∀ msgs, (policy msgs).2 ≠ []) :
    ∀ (fuel : ℕ) (msgs : List Message), run policy exec fuel msgs = none := by
  intro fuel
  induction fuel with
  | zero => intro msgs; rfl
  | succ n ih =>
    intro msgs
    rw [run_succ_tools policy exec msgs (policy msgs).1 (policy msgs).2 n rfl
      (h msgs), ih]

/-- Witness for C8: a Policy that always requests one more add call never
terminates within fuel 5. -/
theorem loop_no_step_bound_witness :
    run (fun _ => ("", [⟨"c", "add", []⟩])) (fun _ => .Success (.int 0)) 5
      [.user "q"] = none :=
  loop_no_step_bound (fun _ => ("", [⟨"c", "add", []⟩]))
    (fun _ => .Success (.int 0)) (fun _ => List.cons_ne_nil _ _) 5 [.user "q"]

/-- C9: the ConversationState is append-only: a call_model step and a
tools step each extend the message sequence at the end, and a whole
terminated run only ever extends the initial sequence — the prior
sequence is a prefix of the final one, no message is removed or modified. -/
theorem state_append_only :
    (∀ (policy : Policy) (msgs : List Message),
      ∃ t, call_model policy msgs = msgs ++ t) ∧
    (∀ (exec : Executor) (msgs : List Message),
      ∃ t, tool_node exec msgs = msgs ++ t) ∧
    (∀ (policy : Policy) (exec : Executor) (fuel : ℕ) (msgs : List Message)
      (r : RunResult), run policy exec fuel msgs = some r →
      ∃ t, r.messages = msgs ++ t) := by
  refine ⟨fun policy msgs => ⟨_, rfl⟩, fun exec msgs => ⟨_, rfl⟩, ?_⟩
  intro policy exec fuel
  induction fuel with
  | zero => intro msgs r h; exact absurd h (by simp [run])
  | succ n ih =>
    intro msgs r h
    rcases hp : policy msgs with ⟨text, calls⟩
    by_cases hne : calls = []
    · rw [hne] at hp
      rw [run_succ_stop policy exec msgs text n hp] at h
      obtain rfl := Option.some_injective _ h
      exact ⟨_, rfl⟩
    · rw [run_succ_tools policy exec msgs text calls n hp hne] at h
      rcases hr : run policy exec n
          (msgs ++ [.assistant text calls] ++ resultsFor exec calls) with _ | r'
      · rw [hr] at h
        exact absurd h (by simp)
      · rw [hr] at h
        obtain rfl := Option.some_injective _ h
        obtain ⟨t, ht⟩ := ih _ r' hr
        exact ⟨[Message.assistant text calls] ++ resultsFor exec calls ++ t, by
          simp only [ht]; simp [List.append_assoc]⟩

/-- Witness for C9: a one-step run starting from a single UserMessage
only appends to it. -/
theorem state_append_only_witness :
    ∃ t, ([Message.user "q", Message.assistant "hi" []] : List Message) =
      [Message.user "q"] ++ t :=
  state_append_only.2.2 (fun _ => ("hi", [])) (fun _ => .Success (.int 0)) 1
    [.user "q"] ⟨[.user "q", .assistant "hi" []], "hi", 1, 0⟩ rfl

end MCPClient
